import Mathlib

/-!
Shallow embedding of `demohouse/deep_research/deep_research.py`.

The language-model and search collaborators are external (spec §1); they are
modelled by an `Oracle` record giving, per planning round, the intention
model's reply, the planning model's streamed chunks, and the search engine's
results, plus the summary model's buffered/streamed replies as a function of
the conversation history.  Python strings are modelled by `String` (with
`List Char` views for the character-level operations `split`/`strip`/`in`);
Python `None`-or-empty truthiness of chunk fields is modelled by comparing
with the empty string.
-/

/-- A search result as used by `deep_research.py`: the originating query
(`search_result.query`, line 208) and a rendered summary string
(`v.summary_content`, line 55).  The collaborator's result type
(`search_engine.SearchResult`) lives outside `src`; spec §3 "Result Record"
fixes exactly these two components. -/
structure SearchResult where
  query : String
  summary_content : String
deriving Repr, DecidableEq

/-- One streamed output unit: `chunk.choices[0].delta.reasoning_content` and
`chunk.choices[0].delta.content`.  Python `None` and `""` are both falsy and
are collapsed to `""`. -/
structure Chunk where
  reasoning_content : String
  content : String
deriving Repr, DecidableEq

/-- A buffered model response: `resp.choices[0].delta.reasoning_content` and
`resp.choices[0].delta.content`.  The response type (`ArkChatResponse`) lives
outside `src`; spec §6 requires only that reasoning and content are
distinguishable and that buffered and streamed variants agree. -/
structure Response where
  reasoning_content : String
  content : String
deriving Repr, DecidableEq

/-- A conversation message (`ArkMessage(role=..., content=...)`). -/
structure ArkMessage where
  role : String
  content : String
deriving Repr, DecidableEq

/-- Modelled from the spec: `cast_content_to_reasoning_content` (imported from
`utils`, not under `src`).  Spec §4.2: a content increment is re-emitted to the
caller "after being reclassified as reasoning". -/
def cast_content_to_reasoning_content (c : Chunk) : Chunk :=
  { reasoning_content := c.content, content := "" }

/-! ### Python string primitives -/

/-- Python `needle in hay` (substring containment), on character lists. -/
def containsSub (needle : List Char) : List Char → Bool
  | [] => needle.isEmpty
  | c :: t => needle.isPrefixOf (c :: t) || containsSub needle t

/-- Python `sub in s` for strings. -/
def pyIn (sub s : String) : Bool := containsSub sub.toList s.toList

/-- Python `s.split(' ')`: split on every single space character, keeping
empty pieces; always yields at least one piece. -/
def pySplitSpace : List Char → List (List Char)
  | [] => [[]]
  | c :: rest =>
    match pySplitSpace rest with
    | [] => [[]]
    | piece :: pieces =>
      if c = ' ' then [] :: piece :: pieces else (c :: piece) :: pieces

/-- Python `s.strip()`: drop leading and trailing whitespace. -/
def pyStrip (l : List Char) : List Char :=
  ((l.dropWhile Char.isWhitespace).reverse.dropWhile Char.isWhitespace).reverse

/-- `DeepResearch.check_query` (lines 260–264): `None` when the output
contains the stop marker `无需`, otherwise the output split on single spaces
with each piece stripped. -/
def check_query (output : String) : Option (List String) :=
  if pyIn "无需" output then none
  else some ((pySplitSpace output.toList).map (fun p => (pyStrip p).asString))

/-! ### Evidence Store (`ResultsSummary`) -/

/-- First-match lookup in an insertion-ordered association list (the model of
a Python `dict`'s key lookup). -/
def lookupA : List (String × List SearchResult) → String → Option (List SearchResult)
  | [], _ => none
  | kv :: rest, q => if kv.1 = q then some kv.2 else lookupA rest q

/-- Replace the value at the first occurrence of a key (the model of
`d[key] = value` for a present key: position preserved). -/
def updateA : List (String × List SearchResult) → String → List SearchResult →
    List (String × List SearchResult)
  | [], _, _ => []
  | kv :: rest, q, v => if kv.1 = q then (q, v) :: rest else kv :: updateA rest q v

/-- `ResultsSummary` (lines 35–57): a Python dict from query to the list of
search results, modelled as an insertion-ordered association list (Python
dicts preserve insertion order and `add_result` never duplicates a key). -/
structure ResultsSummary where
  ref_dict : List (String × List SearchResult)
deriving Repr, DecidableEq

/-- `ResultsSummary.add_result` (lines 42–48): create the key at the end when
absent, otherwise extend the existing list in place. -/
def ResultsSummary.add_result (rs : ResultsSummary) (query : String)
    (results : List SearchResult) : ResultsSummary :=
  match lookupA rs.ref_dict query with
  | none => ⟨rs.ref_dict ++ [(query, results)]⟩
  | some old => ⟨updateA rs.ref_dict query (old ++ results)⟩

/-- The text block rendered for one dict entry: the header naming the query,
then the summaries joined by newlines (lines 54–55; note the source puts no
newline between the header and the first summary). -/
def renderEntry (kv : String × List SearchResult) : String :=
  "\n【查询 “" ++ kv.1 ++ "” 得到的相关资料】" ++
    String.intercalate "\n" (kv.2.map (fun v => v.summary_content))

/-- `ResultsSummary.to_plaintext` (lines 50–57): `output += ...` over the dict
entries in order. -/
def ResultsSummary.to_plaintext (rs : ResultsSummary) : String :=
  rs.ref_dict.foldl (fun output kv => output ++ renderEntry kv) ""

/-! ### Configuration and run state -/

/-- `ExtraConfig` (lines 60–79).  Pydantic performs type coercion only, so
`max_planning_rounds` is any integer.  Templates are opaque strings (prompt
templating is outside the core, spec §1). -/
structure ExtraConfig where
  using_intention : Bool := false
  intention_endpoint_id : Option String := none
  max_planning_rounds : Int := 5
  max_search_words : Int := 5
  intention_template : Option String := none
  planning_template : Option String := some "DEFAULT_PLANNING_PROMPT"
  summary_template : Option String := some "DEFAULT_SUMMARY_PROMPT"
deriving Repr, DecidableEq

/-- `DeepResearch` (lines 87–91): endpoint identifiers and the extra config.
The search engine field is the collaborator and lives in the `Oracle`. -/
structure DeepResearch where
  planning_endpoint_id : String := ""
  summary_endpoint_id : String := ""
  extra_config : ExtraConfig := {}
deriving Repr, DecidableEq

/-- `DeepResearch(...)` construction: pydantic assigns the (well-typed) field
values and performs no range or cross-field validation. -/
def DeepResearch.construct (planning_endpoint_id summary_endpoint_id : String)
    (extra_config : ExtraConfig) : DeepResearch :=
  ⟨planning_endpoint_id, summary_endpoint_id, extra_config⟩

/-- Behaviour of the external collaborators during one run, indexed by the
1-based planning round where relevant.  Prompt parameters other than the
conversation history (rendered evidence, question, current date) are absorbed
into the oracle: each round's reply is an arbitrary value, so every concrete
collaborator behaviour is an instance. -/
structure Oracle where
  /-- content of the intention model's reply in a given round (line 225). -/
  intentionReply : Nat → String
  /-- the planning model's streamed chunks in a given round (lines 180–195). -/
  planningStream : Nat → List Chunk
  /-- the search engine's results for a given round and query list (line 205). -/
  searchResults : Nat → List String → List SearchResult
  /-- the summary model's buffered reply, as a function of the history. -/
  summaryResponse : List ArkMessage → Response
  /-- the summary model's streamed chunks, as a function of the history. -/
  summaryStream : List ArkMessage → List Chunk

/-- Mutable state threaded through the planning loop, plus call counters and
the trace of chunks yielded to the caller. -/
structure PlanState where
  references : ResultsSummary
  emitted : List Chunk
  planningCalls : Nat
  searchCalls : Nat
  intentionCalls : Nat
deriving Repr, DecidableEq

/-- The run's initial state: empty evidence store, nothing emitted, no calls. -/
def initPlanState : PlanState :=
  { references := ⟨[]⟩, emitted := [], planningCalls := 0, searchCalls := 0,
    intentionCalls := 0 }

/-- The four normal loop completions (spec §4.4). -/
inductive Terminal where
  | RoundLimitReached
  | NoFurtherSearchNeeded
  | PlanningSignaledStop
deriving Repr, DecidableEq

/-! ### Planning loop -/

/-- The `async for chunk in stream` body of `astream_planning` (lines 189–195):
returns the accumulated `planning_result` and the chunks yielded, in order.
A chunk with truthy `reasoning_content` is yielded verbatim; otherwise a chunk
with truthy `content` is appended to `planning_result` and yielded recast as
reasoning; otherwise the chunk is dropped. -/
def processPlanningStream : List Chunk → String × List Chunk
  | [] => ("", [])
  | c :: rest =>
    if c.reasoning_content ≠ "" then
      let r := processPlanningStream rest
      (r.1, c :: r.2)
    else if c.content ≠ "" then
      let r := processPlanningStream rest
      (c.content ++ r.1, cast_content_to_reasoning_content c :: r.2)
    else
      processPlanningStream rest

/-- Outcome of one iteration of the `while` body: either the loop `break`s
with a terminal, or continues with the updated state. -/
inductive RoundOutcome where
  | halt (st : PlanState) (t : Terminal)
  | next (st : PlanState)
deriving Repr, DecidableEq

/-- One iteration of the `while` body of `astream_planning` (lines 166–208),
for the given 1-based round number: optional intention gate (lines 168–172,
`_intention_check` returns `'否' not in reply`, line 225), then the planning
call, then `check_query`; `if not new_queries: break` (Python falsiness:
`None` or the empty list), else one search call whose results are added to
the evidence store keyed by each result's own query tag (lines 205–208). -/
def roundStep (cfg : ExtraConfig) (o : Oracle) (round : Nat) (st : PlanState) :
    RoundOutcome :=
  if cfg.using_intention && pyIn "否" (o.intentionReply round) then
    RoundOutcome.halt { st with intentionCalls := st.intentionCalls + 1 }
      Terminal.NoFurtherSearchNeeded
  else
    let st1 := { st with
      intentionCalls := st.intentionCalls + (if cfg.using_intention then 1 else 0) }
    let planning_result := (processPlanningStream (o.planningStream round)).1
    let out := (processPlanningStream (o.planningStream round)).2
    let st2 := { st1 with
      planningCalls := st1.planningCalls + 1, emitted := st1.emitted ++ out }
    match check_query planning_result with
    | none => RoundOutcome.halt st2 Terminal.PlanningSignaledStop
    | some [] => RoundOutcome.halt st2 Terminal.PlanningSignaledStop
    | some (q :: qs) =>
      let results := o.searchResults round (q :: qs)
      RoundOutcome.next { st2 with
        references := results.foldl
          (fun r sr => r.add_result sr.query [sr]) st2.references,
        searchCalls := st2.searchCalls + 1 }

/-- The `while planned_rounds < max_planning_rounds` loop (lines 164–208):
`fuel` is the number of remaining rounds, `planned` the rounds finished so
far; exhausted fuel is the loop condition turning false. -/
def planLoop (cfg : ExtraConfig) (o : Oracle) :
    Nat → Nat → PlanState → PlanState × Terminal
  | 0, _, st => (st, Terminal.RoundLimitReached)
  | Nat.succ fuel, planned, st =>
    match roundStep cfg o (planned + 1) st with
    | RoundOutcome.halt st' t => (st', t)
    | RoundOutcome.next st' => planLoop cfg o fuel (planned + 1) st'

/-- `DeepResearch.astream_planning` (lines 157–208), as the final state and
terminal.  `planned_rounds` starts at 0 and the loop runs while it is below
`max_planning_rounds` (an `int`, so a non-positive limit means zero rounds). -/
def DeepResearch.astream_planning (dr : DeepResearch) (o : Oracle) :
    PlanState × Terminal :=
  planLoop dr.extra_config o dr.extra_config.max_planning_rounds.toNat 0
    initPlanState

/-! ### Run controller -/

/-- `buffered_reasoning_content += chunk.choices[0].delta.reasoning_content`
over a chunk sequence (lines 104–105 and 136–137). -/
def concatReasoning (chunks : List Chunk) : String :=
  chunks.foldl (fun acc c => acc ++ c.reasoning_content) ""

/-- Python exceptions surfaced by the embedding. -/
inductive PyError where
  | attributeError
deriving Repr, DecidableEq

/-- `DeepResearch.arun_summary` (lines 227–238): the call constructs its
template from `self.summary_template`, but `DeepResearch` declares no field
of that name (the template lives at `self.extra_config.summary_template`, as
`astream_summary` line 244 reads it), so the attribute access raises
`AttributeError` before the language-model call is made. -/
def DeepResearch.arun_summary (dr : DeepResearch) (o : Oracle)
    (msgs : List ArkMessage) : Except PyError Response :=
  Except.error PyError.attributeError

/-- Modelled from the spec: the evidently intended `arun_summary` — spec §4.5
describes one buffered summary-model call over the final evidence, reading
the template from the configuration as `astream_summary` (line 244) does.
The collaborator's buffered reply is the oracle's `summaryResponse`. -/
def DeepResearch.arun_summary_fixed (dr : DeepResearch) (o : Oracle)
    (msgs : List ArkMessage) : Response :=
  o.summaryResponse msgs

/-- `DeepResearch.arun_deep_research` (lines 93–122): run planning buffering
every yielded chunk's reasoning text, append one assistant message carrying
the buffer to the history (the mutation of `request.messages` survives even
if the summary call then raises), call `arun_summary`, and prepend the buffer
to the response's reasoning field.  Returns the summary outcome and the
history as mutated. -/
def DeepResearch.arun_deep_research (dr : DeepResearch) (o : Oracle)
    (msgs : List ArkMessage) : Except PyError Response × List ArkMessage :=
  let st := (dr.astream_planning o).1
  let buffered := concatReasoning st.emitted
  let msgs2 := msgs ++ [ArkMessage.mk "assistant" buffered]
  match dr.arun_summary o msgs2 with
  | Except.error e => (Except.error e, msgs2)
  | Except.ok resp =>
    (Except.ok { resp with reasoning_content := buffered ++ resp.reasoning_content },
      msgs2)

/-- `arun_deep_research` with the summary call reading its template from
`extra_config` as evidently intended (see `arun_summary_fixed`); all other
steps as in the source. -/
def DeepResearch.arun_deep_research_fixed (dr : DeepResearch) (o : Oracle)
    (msgs : List ArkMessage) : Response × List ArkMessage :=
  let st := (dr.astream_planning o).1
  let buffered := concatReasoning st.emitted
  let msgs2 := msgs ++ [ArkMessage.mk "assistant" buffered]
  let resp := dr.arun_summary_fixed o msgs2
  ({ resp with reasoning_content := buffered ++ resp.reasoning_content }, msgs2)

/-- `DeepResearch.astream_deep_research` (lines 124–155): forward every
planning chunk while buffering its reasoning text, append one assistant
message carrying the buffer, then forward every summary chunk.  Returns the
full forwarded chunk sequence and the history as mutated. -/
def DeepResearch.astream_deep_research (dr : DeepResearch) (o : Oracle)
    (msgs : List ArkMessage) : List Chunk × List ArkMessage :=
  let st := (dr.astream_planning o).1
  let buffered := concatReasoning st.emitted
  let msgs2 := msgs ++ [ArkMessage.mk "assistant" buffered]
  (st.emitted ++ o.summaryStream msgs2, msgs2)

/-! ### Spec-side classifier (refinement target for C3) -/

/-- Spec §4.2, as written: what the classifier forwards to the streaming
caller for one unit — a reasoning unit verbatim, a content unit reclassified
as reasoning, nothing for an empty unit. -/
def spec_classifyChunk (c : Chunk) : Option Chunk :=
  if c.reasoning_content ≠ "" then some c
  else if c.content ≠ "" then some (cast_content_to_reasoning_content c)
  else none

/-- Spec §4.2, as written: what the classifier adds to the query-parsing
(planning result) buffer for one unit — only a content unit's text. -/
def spec_bufferContribution (c : Chunk) : Option String :=
  if c.reasoning_content ≠ "" then none
  else if c.content ≠ "" then some c.content
  else none

/-- Concatenation of a list of strings, head first. -/
def concatStrings : List String → String
  | [] => ""
  | s :: rest => s ++ concatStrings rest

/-! ### Sample collaborator (used by witnesses) -/

/-- A trivial collaborator: empty replies everywhere.  Witness statements
override the relevant field. -/
def trivOracle : Oracle :=
  { intentionReply := fun _ => ""
    planningStream := fun _ => []
    searchResults := fun _ _ => []
    summaryResponse := fun _ => ⟨"", ""⟩
    summaryStream := fun _ => [] }

/-! ### C3 -/

/-- C3: during planning, every streamed unit with a populated reasoning field
is forwarded verbatim and contributes nothing to the planning-result buffer;
every unit with a populated content field (and no reasoning) is appended to
the buffer and forwarded reclassified as reasoning, never as content; units
with neither field populated are dropped.  The source-translated stream
processor agrees, unit for unit and in order, with the spec-side classifier. -/
theorem planning_chunk_classification (chunks : List Chunk) :
    (processPlanningStream chunks).2 = chunks.filterMap spec_classifyChunk ∧
    (processPlanningStream chunks).1 =
      concatStrings (chunks.filterMap spec_bufferContribution) := by
  induction chunks with
  | nil => exact ⟨rfl, rfl⟩
  | cons c rest ih =>
    by_cases hr : c.reasoning_content = ""
    · by_cases hc : c.content = ""
      · simpa [processPlanningStream, spec_classifyChunk, spec_bufferContribution,
          hr, hc, List.filterMap_cons] using ih
      · simp [processPlanningStream, spec_classifyChunk, spec_bufferContribution,
          hr, hc, List.filterMap_cons, ih.1, ih.2, concatStrings]
    · simp [processPlanningStream, spec_classifyChunk, spec_bufferContribution,
        hr, List.filterMap_cons, ih.1, ih.2]

/-! ### C6 -/

/-- C6: in both entry points, exactly one assistant-role message carrying the
full accumulated planning-phase reasoning text is appended to the conversation
history, after the planning loop completes and before the synthesis call; the
streaming synthesis call receives exactly the history so extended. -/
theorem synthetic_assistant_message_appended_once (dr : DeepResearch)
    (o : Oracle) (msgs : List ArkMessage) :
    (dr.arun_deep_research o msgs).2 =
      msgs ++ [ArkMessage.mk "assistant"
        (concatReasoning (dr.astream_planning o).1.emitted)] ∧
    (dr.astream_deep_research o msgs).2 =
      msgs ++ [ArkMessage.mk "assistant"
        (concatReasoning (dr.astream_planning o).1.emitted)] ∧
    (dr.astream_deep_research o msgs).1 =
      (dr.astream_planning o).1.emitted ++
        o.summaryStream (msgs ++ [ArkMessage.mk "assistant"
          (concatReasoning (dr.astream_planning o).1.emitted)]) := by
  refine ⟨rfl, rfl, rfl⟩

/-! ### C5 -/

/-- C5 (code bug): in buffered mode the source never returns a response —
`arun_summary` reads the non-existent attribute `self.summary_template`
(line 230) and raises `AttributeError` — whereas with the template read from
`extra_config` as evidently intended (and as `astream_summary` does, line
244), the returned response's reasoning field is the concatenated planning
emission followed by the synthesis reasoning, and its content field is
exactly the synthesis content. -/
theorem buffered_mode_raises_and_intended_composition (dr : DeepResearch)
    (o : Oracle) (msgs : List ArkMessage) :
    (dr.arun_deep_research o msgs).1 = Except.error PyError.attributeError ∧
    (dr.arun_deep_research_fixed o msgs).1.reasoning_content =
      concatReasoning (dr.astream_planning o).1.emitted ++
        (o.summaryResponse (msgs ++ [ArkMessage.mk "assistant"
          (concatReasoning (dr.astream_planning o).1.emitted)])).reasoning_content ∧
    (dr.arun_deep_research_fixed o msgs).1.content =
      (o.summaryResponse (msgs ++ [ArkMessage.mk "assistant"
        (concatReasoning (dr.astream_planning o).1.emitted)])).content := by
  refine ⟨rfl, rfl, rfl⟩

/-! ### C9 -/

/-- Modelled from the spec: §7 ConfigurationError — construction must fail
fast when the round limit is not positive, a required endpoint identifier is
missing, or intention-gating is enabled without an intention template. -/
def spec_validateConstruction (planning_endpoint_id summary_endpoint_id : String)
    (cfg : ExtraConfig) : Except String Unit :=
  if cfg.max_planning_rounds ≤ 0 then Except.error "round limit must be positive"
  else if planning_endpoint_id = "" ∨ summary_endpoint_id = "" then
    Except.error "missing required endpoint identifier"
  else if cfg.using_intention ∧ cfg.intention_template = none then
    Except.error "intention-gating enabled without an intention template"
  else Except.ok ()

/-- A configuration violating all three fail-fast conditions of spec §7. -/
def invalidConfig : ExtraConfig :=
  { using_intention := true, intention_template := none, max_planning_rounds := 0 }

/-- C9 (code bug): construction with an invalid configuration succeeds — the
source performs no validation, so the invalid field values are stored as
given, while the spec-mandated validation rejects them; the run then proceeds
normally (a zero round limit simply yields zero planning rounds and
`RoundLimitReached`) instead of failing fast. -/
theorem invalid_config_construction_succeeds :
    (DeepResearch.construct "" "" invalidConfig).extra_config.max_planning_rounds = 0 ∧
    (DeepResearch.construct "" "" invalidConfig).extra_config.using_intention = true ∧
    (DeepResearch.construct "" "" invalidConfig).extra_config.intention_template = none ∧
    spec_validateConstruction "" "" invalidConfig =
      Except.error "round limit must be positive" ∧
    (DeepResearch.construct "" "" invalidConfig).astream_planning trivOracle =
      (initPlanState, Terminal.RoundLimitReached) := by
  refine ⟨rfl, rfl, rfl, rfl, rfl⟩

def RoundOutcome.outState : RoundOutcome → PlanState
  | RoundOutcome.halt st _ => st
  | RoundOutcome.next st => st

lemma roundStep_counts (cfg : ExtraConfig) (o : Oracle) (round : Nat) (st : PlanState) :
    (roundStep cfg o round st).outState.planningCalls ≤ st.planningCalls + 1 ∧
    (roundStep cfg o round st).outState.searchCalls ≤ st.searchCalls + 1 := by
  unfold roundStep
  split
  · simp [RoundOutcome.outState]
  · split <;>
      (cases hq : check_query (processPlanningStream (o.planningStream round)).1 with
        | none => simp [hq, RoundOutcome.outState]
        | some l => cases l <;> simp [hq, RoundOutcome.outState])

lemma planLoop_counts (cfg : ExtraConfig) (o : Oracle) :
    ∀ (fuel planned : Nat) (st : PlanState),
    (planLoop cfg o fuel planned st).1.planningCalls ≤ st.planningCalls + fuel ∧
    (planLoop cfg o fuel planned st).1.searchCalls ≤ st.searchCalls + fuel := by
  intro fuel
  induction fuel with
  | zero => intro planned st; simp [planLoop]
  | succ n ih =>
    intro planned st
    have h := roundStep_counts cfg o (planned + 1) st
    cases hr : roundStep cfg o (planned + 1) st with
    | halt st' t =>
      rw [hr] at h
      simp only [RoundOutcome.outState] at h
      simp [planLoop, hr]
      omega
    | next st' =>
      rw [hr] at h
      simp only [RoundOutcome.outState] at h
      have h2 := ih (planned + 1) st'
      simp [planLoop, hr]
      omega

/-- C1: for every run, the planning loop issues at most `max_planning_rounds`
planning calls and at most `max_planning_rounds` search calls — each round
makes at most one of each — and with no round budget left the loop exits at
once with `RoundLimitReached`. -/
theorem planning_and_search_calls_le_round_limit (dr : DeepResearch) (o : Oracle) :
    ((dr.astream_planning o).1.planningCalls ≤
        dr.extra_config.max_planning_rounds.toNat ∧
      (dr.astream_planning o).1.searchCalls ≤
        dr.extra_config.max_planning_rounds.toNat) ∧
    ∀ (cfg : ExtraConfig) (o2 : Oracle) (planned : Nat) (st : PlanState),
      planLoop cfg o2 0 planned st = (st, Terminal.RoundLimitReached) := by
  constructor
  · have h := planLoop_counts dr.extra_config o
      dr.extra_config.max_planning_rounds.toNat 0 initPlanState
    simpa [DeepResearch.astream_planning, initPlanState] using h
  · intro cfg o2 planned st
    rfl

lemma pySplitSpace_ne_nil (l : List Char) : pySplitSpace l ≠ [] := by
  cases l with
  | nil => simp [pySplitSpace]
  | cons c rest =>
    unfold pySplitSpace
    split
    · simp
    · split <;> simp

/-- C2: whenever a round's planning result contains the stop marker `无需`
(and the intention gate did not already stop the round), `check_query` yields
no queries, and the loop halts with `PlanningSignaledStop` having made that
round's planning call but no search call and no further calls of either
kind. -/
theorem stop_marker_skips_search_and_halts (cfg : ExtraConfig) (o : Oracle)
    (fuel planned : Nat) (st : PlanState)
    (hgate : (cfg.using_intention && pyIn "否" (o.intentionReply (planned + 1))) = false)
    (hstop : pyIn "无需" (processPlanningStream (o.planningStream (planned + 1))).1 = true) :
    check_query (processPlanningStream (o.planningStream (planned + 1))).1 = none ∧
    ∃ st', planLoop cfg o (fuel + 1) planned st = (st', Terminal.PlanningSignaledStop) ∧
      st'.searchCalls = st.searchCalls ∧
      st'.planningCalls = st.planningCalls + 1 := by
  have hq : check_query (processPlanningStream (o.planningStream (planned + 1))).1 = none := by
    simp [check_query, hstop]
  refine ⟨hq, ?_⟩
  unfold planLoop roundStep
  rw [hgate]
  simp only [Bool.false_eq_true, if_false, hq]
  exact ⟨_, rfl, rfl, rfl⟩

/-- C4: with intention-gating enabled and a positive round limit, if the
round-1 intention reply contains the negative marker `否`, the whole planning
phase ends with `NoFurtherSearchNeeded` having issued no planning prompt,
no search call, and emitted nothing. -/
theorem intention_no_on_round_one_halts (dr : DeepResearch) (o : Oracle)
    (hgate : dr.extra_config.using_intention = true)
    (hno : pyIn "否" (o.intentionReply 1) = true)
    (hpos : 0 < dr.extra_config.max_planning_rounds) :
    ∃ st', dr.astream_planning o = (st', Terminal.NoFurtherSearchNeeded) ∧
      st'.planningCalls = 0 ∧ st'.searchCalls = 0 ∧ st'.emitted = [] := by
  obtain ⟨n, hn⟩ : ∃ n, dr.extra_config.max_planning_rounds.toNat = n + 1 :=
    ⟨dr.extra_config.max_planning_rounds.toNat - 1, by omega⟩
  unfold DeepResearch.astream_planning
  rw [hn]
  unfold planLoop roundStep
  rw [hgate, hno]
  simp only [Bool.and_self, if_true]
  exact ⟨_, rfl, rfl, rfl, rfl⟩

/-- C10: when a round's planning result lacks the stop marker, `check_query`
returns a non-empty list (splitting on a single space always yields at least
one element), so the round performs exactly one search call and continues;
conversely the `PlanningSignaledStop` exit is reachable only when the stop
marker is present in the round's planning result. -/
theorem no_stop_marker_triggers_search (cfg : ExtraConfig) (o : Oracle)
    (round : Nat) (st : PlanState)
    (hgate : (cfg.using_intention && pyIn "否" (o.intentionReply round)) = false) :
    (pyIn "无需" (processPlanningStream (o.planningStream round)).1 = false →
      (∃ hd tl, check_query (processPlanningStream (o.planningStream round)).1 =
        some (hd :: tl)) ∧
      ∃ st', roundStep cfg o round st = RoundOutcome.next st' ∧
        st'.searchCalls = st.searchCalls + 1) ∧
    (∀ st', roundStep cfg o round st =
        RoundOutcome.halt st' Terminal.PlanningSignaledStop →
      pyIn "无需" (processPlanningStream (o.planningStream round)).1 = true) := by
  constructor
  · intro hmk
    obtain ⟨p, ps, hsplit⟩ :
        ∃ p ps, pySplitSpace (processPlanningStream (o.planningStream round)).1.data
          = p :: ps := by
      cases h : pySplitSpace (processPlanningStream (o.planningStream round)).1.data with
      | nil => exact absurd h (pySplitSpace_ne_nil _)
      | cons p ps => exact ⟨p, ps, rfl⟩
    have hq : check_query (processPlanningStream (o.planningStream round)).1 =
        some ((pyStrip p).asString :: ps.map (fun q => (pyStrip q).asString)) := by
      simp [check_query, hmk, hsplit]
    refine ⟨⟨_, _, hq⟩, ?_⟩
    unfold roundStep
    rw [hgate]
    simp only [Bool.false_eq_true, if_false, hq]
    exact ⟨_, rfl, rfl⟩
  · intro st' hhalt
    cases hmk : pyIn "无需" (processPlanningStream (o.planningStream round)).1 with
    | true => rfl
    | false =>
      obtain ⟨p, ps, hsplit⟩ :
          ∃ p ps, pySplitSpace (processPlanningStream (o.planningStream round)).1.data
            = p :: ps := by
        cases h : pySplitSpace (processPlanningStream (o.planningStream round)).1.data with
        | nil => exact absurd h (pySplitSpace_ne_nil _)
        | cons p ps => exact ⟨p, ps, rfl⟩
      have hq : check_query (processPlanningStream (o.planningStream round)).1 =
          some ((pyStrip p).asString :: ps.map (fun q => (pyStrip q).asString)) := by
        simp [check_query, hmk, hsplit]
      unfold roundStep at hhalt
      rw [hgate] at hhalt
      simp only [Bool.false_eq_true, if_false, hq] at hhalt
      exact RoundOutcome.noConfusion hhalt

/-! ### Witnesses for the loop theorems -/

/-- A planning model that answers `无需搜索` (contains the stop marker). -/
def stopOracle : Oracle :=
  { trivOracle with planningStream := fun _ => [⟨"", "无需搜索"⟩] }

/-- A planning model that answers two space-separated queries. -/
def searchOracle : Oracle :=
  { trivOracle with planningStream := fun _ => [⟨"", "查 询"⟩] }

/-- An intention model that answers `否`. -/
def noIntentOracle : Oracle :=
  { trivOracle with intentionReply := fun _ => "否" }

/-- A run with intention-gating enabled. -/
def intentDR : DeepResearch :=
  { planning_endpoint_id := "p", summary_endpoint_id := "s",
    extra_config := { using_intention := true,
                      intention_endpoint_id := some "e",
                      intention_template := some "T" } }

/-- Witness for C2 at a concrete run: round limit 1, planning output
`无需搜索`. -/
theorem stop_marker_skips_search_and_halts_witness :
    check_query (processPlanningStream (stopOracle.planningStream (0 + 1))).1 = none ∧
    ∃ st', planLoop {} stopOracle (0 + 1) 0 initPlanState =
        (st', Terminal.PlanningSignaledStop) ∧
      st'.searchCalls = initPlanState.searchCalls ∧
      st'.planningCalls = initPlanState.planningCalls + 1 :=
  stop_marker_skips_search_and_halts {} stopOracle 0 0 initPlanState
    (by decide) (by decide)

/-- Witness for C4 at a concrete run: gating enabled, intention reply `否`. -/
theorem intention_no_on_round_one_halts_witness :
    ∃ st', intentDR.astream_planning noIntentOracle =
        (st', Terminal.NoFurtherSearchNeeded) ∧
      st'.planningCalls = 0 ∧ st'.searchCalls = 0 ∧ st'.emitted = [] :=
  intention_no_on_round_one_halts intentDR noIntentOracle rfl (by decide) (by decide)

/-- Witness for C10 at a concrete run: planning output `查 询`, no stop
marker. -/
theorem no_stop_marker_triggers_search_witness :
    (pyIn "无需" (processPlanningStream (searchOracle.planningStream 1)).1 = false →
      (∃ hd tl, check_query (processPlanningStream (searchOracle.planningStream 1)).1 =
        some (hd :: tl)) ∧
      ∃ st', roundStep {} searchOracle 1 initPlanState = RoundOutcome.next st' ∧
        st'.searchCalls = initPlanState.searchCalls + 1) ∧
    (∀ st', roundStep {} searchOracle 1 initPlanState =
        RoundOutcome.halt st' Terminal.PlanningSignaledStop →
      pyIn "无需" (processPlanningStream (searchOracle.planningStream 1)).1 = true) :=
  no_stop_marker_triggers_search {} searchOracle 1 initPlanState (by decide)

/-! ### C7 development -/

lemma str_append_assoc (a b c : String) : a ++ b ++ c = a ++ (b ++ c) := by
  apply String.ext
  simp [String.data_append, List.append_assoc]

lemma str_append_empty (a : String) : a ++ "" = a := by
  apply String.ext
  simp [String.data_append]

/-- Fold the `add_result` calls of a whole run over an evidence store. -/
def applyAdds (adds : List (String × List SearchResult)) (rs : ResultsSummary) :
    ResultsSummary :=
  adds.foldl (fun r a => r.add_result a.1 a.2) rs

/-- The distinct elements of a list, keeping first occurrences, in order. -/
def firstKeys : List String → List String
  | [] => []
  | k :: rest => k :: (firstKeys rest).filter (fun x => x ≠ k)

/-- All results added for one query over a run, in call order. -/
def collected (adds : List (String × List SearchResult)) (k : String) :
    List SearchResult :=
  (adds.filterMap (fun a => if a.1 = k then some a.2 else none)).flatten

lemma updateA_map_fst (l : List (String × List SearchResult)) (q : String)
    (v : List SearchResult) : (updateA l q v).map Prod.fst = l.map Prod.fst := by
  induction l with
  | nil => rfl
  | cons kv rest ih =>
    unfold updateA
    by_cases h : kv.1 = q <;> simp [h, ih]

lemma lookupA_updateA_self (l : List (String × List SearchResult)) (q : String)
    (v old : List SearchResult) (h : lookupA l q = some old) :
    lookupA (updateA l q v) q = some v := by
  induction l with
  | nil => simp [lookupA] at h
  | cons kv rest ih =>
    unfold updateA
    by_cases hk : kv.1 = q
    · simp [hk, lookupA]
    · unfold lookupA at h
      simp [hk] at h
      simp [lookupA, hk, ih h]

lemma lookupA_updateA_ne (l : List (String × List SearchResult)) (q k : String)
    (v : List SearchResult) (h : k ≠ q) :
    lookupA (updateA l q v) k = lookupA l k := by
  induction l with
  | nil => rfl
  | cons kv rest ih =>
    unfold updateA
    by_cases hk : kv.1 = q
    · subst hk
      simp [lookupA, Ne.symm h]
    · unfold lookupA
      by_cases hkk : kv.1 = k <;> simp [lookupA, hk, hkk, ih, h]

lemma lookupA_append_singleton (l : List (String × List SearchResult))
    (q k : String) (v : List SearchResult) :
    lookupA (l ++ [(q, v)]) k =
      match lookupA l k with
      | some x => some x
      | none => if k = q then some v else none := by
  induction l with
  | nil => simp [lookupA, eq_comm]
  | cons kv rest ih =>
    unfold lookupA
    by_cases hk : kv.1 = k <;> simp [hk, ih]

lemma lookupA_isSome_iff (l : List (String × List SearchResult)) (k : String) :
    (lookupA l k).isSome = true ↔ k ∈ l.map Prod.fst := by
  induction l with
  | nil => simp [lookupA]
  | cons kv rest ih =>
    unfold lookupA
    by_cases hk : kv.1 = k
    · subst hk
      simp
    · have hk2 : ¬ k = kv.1 := fun hh => hk hh.symm
      simp [hk, hk2, ih]

lemma add_result_map_fst (rs : ResultsSummary) (q : String)
    (v : List SearchResult) :
    (rs.add_result q v).ref_dict.map Prod.fst =
      if q ∈ rs.ref_dict.map Prod.fst then rs.ref_dict.map Prod.fst
      else rs.ref_dict.map Prod.fst ++ [q] := by
  unfold ResultsSummary.add_result
  cases h : lookupA rs.ref_dict q with
  | none =>
    have : ¬ q ∈ rs.ref_dict.map Prod.fst := by
      rw [← lookupA_isSome_iff, h]; simp
    simp [this]
  | some old =>
    have : q ∈ rs.ref_dict.map Prod.fst := by
      rw [← lookupA_isSome_iff, h]; rfl
    simp [this, updateA_map_fst]

lemma add_result_lookup_self (rs : ResultsSummary) (q : String)
    (v : List SearchResult) :
    lookupA (rs.add_result q v).ref_dict q =
      some ((lookupA rs.ref_dict q).getD [] ++ v) := by
  unfold ResultsSummary.add_result
  cases h : lookupA rs.ref_dict q with
  | none => simp [lookupA_append_singleton, h]
  | some old => simp [lookupA_updateA_self rs.ref_dict q _ old h]

lemma add_result_lookup_ne (rs : ResultsSummary) (q k : String)
    (v : List SearchResult) (h : k ≠ q) :
    lookupA (rs.add_result q v).ref_dict k = lookupA rs.ref_dict k := by
  unfold ResultsSummary.add_result
  cases hq : lookupA rs.ref_dict q with
  | none =>
    simp only [lookupA_append_singleton, h]
    cases lookupA rs.ref_dict k <;> simp [h]
  | some old => simp [lookupA_updateA_ne rs.ref_dict q k _ h]

lemma mem_firstKeys (k : String) (l : List String) :
    k ∈ firstKeys l ↔ k ∈ l := by
  induction l with
  | nil => simp [firstKeys]
  | cons h t ih =>
    unfold firstKeys
    by_cases hk : k = h
    · simp [hk]
    · simp [hk, List.mem_filter, ih]

lemma firstKeys_append_singleton (l : List String) (k : String) :
    firstKeys (l ++ [k]) =
      if k ∈ l then firstKeys l else firstKeys l ++ [k] := by
  induction l with
  | nil => simp [firstKeys]
  | cons h t ih =>
    unfold firstKeys
    rw [List.cons_append]
    show h :: (firstKeys (t ++ [k])).filter (fun x => x ≠ h) = _
    rw [ih]
    by_cases hkt : k ∈ t
    · simp [hkt, firstKeys]
    · by_cases hkh : k = h
      · subst hkh
        simp [hkt, firstKeys, List.filter_append]
      · simp [hkt, hkh, firstKeys, List.filter_append, Ne.symm hkh]

lemma collected_append_singleton (adds : List (String × List SearchResult))
    (a : String × List SearchResult) (k : String) :
    collected (adds ++ [a]) k =
      collected adds k ++ (if a.1 = k then a.2 else []) := by
  unfold collected
  rw [List.filterMap_append]
  by_cases h : a.1 = k <;> simp [h]

lemma collected_nil_of_not_mem (adds : List (String × List SearchResult))
    (k : String) (h : ¬ k ∈ adds.map Prod.fst) : collected adds k = [] := by
  induction adds with
  | nil => rfl
  | cons a t ih =>
    rw [List.map_cons, List.mem_cons] at h
    obtain ⟨h1, h2⟩ := not_or.mp h
    unfold collected
    rw [List.filterMap_cons]
    have ha : ¬ a.1 = k := fun hh => h1 hh.symm
    simp only [ha, if_false]
    exact ih h2

lemma applyAdds_append_singleton (adds : List (String × List SearchResult))
    (a : String × List SearchResult) (rs : ResultsSummary) :
    applyAdds (adds ++ [a]) rs = (applyAdds adds rs).add_result a.1 a.2 := by
  simp [applyAdds, List.foldl_append]

lemma applyAdds_keys (adds : List (String × List SearchResult)) :
    (applyAdds adds ⟨[]⟩).ref_dict.map Prod.fst = firstKeys (adds.map Prod.fst) := by
  induction adds using List.reverseRecOn with
  | nil => rfl
  | append_singleton l a ih =>
    rw [applyAdds_append_singleton, add_result_map_fst, ih, List.map_append]
    simp only [List.map_cons, List.map_nil]
    rw [firstKeys_append_singleton]
    by_cases h : a.1 ∈ l.map Prod.fst
    · simp [h, (mem_firstKeys a.1 (l.map Prod.fst)).mpr h]
    · have : ¬ a.1 ∈ firstKeys (l.map Prod.fst) := fun hh =>
        h ((mem_firstKeys a.1 (l.map Prod.fst)).mp hh)
      simp [h, this]

lemma applyAdds_lookup (adds : List (String × List SearchResult)) (k : String) :
    lookupA (applyAdds adds ⟨[]⟩).ref_dict k =
      if k ∈ adds.map Prod.fst then some (collected adds k) else none := by
  induction adds using List.reverseRecOn with
  | nil => simp [applyAdds, lookupA, collected]
  | append_singleton l a ih =>
    rw [applyAdds_append_singleton, List.map_append, collected_append_singleton]
    by_cases hk : k = a.1
    · subst hk
      rw [add_result_lookup_self, ih]
      by_cases hmem : a.1 ∈ l.map Prod.fst
      · simp [hmem]
      · simp [hmem, collected_nil_of_not_mem l a.1 hmem]
    · rw [add_result_lookup_ne _ _ _ _ hk, ih]
      have : ¬ a.1 = k := fun hh => hk hh.symm
      by_cases hmem : k ∈ l.map Prod.fst <;> simp [hmem, hk, this]

lemma foldl_str_append (l : List (String × List SearchResult)) (s : String) :
    l.foldl (fun output kv => output ++ renderEntry kv) s =
      s ++ concatStrings (l.map renderEntry) := by
  induction l generalizing s with
  | nil => simp [concatStrings, str_append_empty]
  | cons kv t ih =>
    simp only [List.foldl_cons, List.map_cons, concatStrings, ih,
      str_append_assoc]

/-- C7: over any sequence of `add_result` calls starting from the empty
store, the rendered output lists query keys in first-insertion order, one
header block per key, and within each key the results in append order: the
dict's key sequence is the first-occurrence sequence of the added queries,
the value at each key is the concatenation of everything added for it in
call order, and `to_plaintext` renders exactly one block per dict entry, in
dict order. -/
theorem evidence_store_render_order (adds : List (String × List SearchResult)) :
    ((applyAdds adds ⟨[]⟩).ref_dict.map Prod.fst = firstKeys (adds.map Prod.fst)) ∧
    (∀ k, lookupA (applyAdds adds ⟨[]⟩).ref_dict k =
      if k ∈ adds.map Prod.fst then some (collected adds k) else none) ∧
    ((applyAdds adds ⟨[]⟩).to_plaintext =
      concatStrings ((applyAdds adds ⟨[]⟩).ref_dict.map renderEntry)) := by
  refine ⟨applyAdds_keys adds, fun k => applyAdds_lookup adds k, ?_⟩
  unfold ResultsSummary.to_plaintext
  rw [foldl_str_append]
  apply String.ext
  simp [String.data_append]

/-! ### C8 -/

lemma pyStrip_eq_nil (p : List Char) (h : ∀ c ∈ p, c.isWhitespace = true) :
    pyStrip p = [] := by
  unfold pyStrip
  have h1 : p.dropWhile Char.isWhitespace = [] :=
    List.dropWhile_eq_nil_iff.mpr h
  simp [h1]

lemma pySplitSpace_piece_chars (l : List Char) :
    ∀ p ∈ pySplitSpace l, ∀ c ∈ p, c ∈ l := by
  induction l with
  | nil =>
    intro p hp c hc
    simp [pySplitSpace] at hp
    subst hp
    simp at hc
  | cons a rest ih =>
    intro p hp c hc
    unfold pySplitSpace at hp
    cases h : pySplitSpace rest with
    | nil => exact absurd h (pySplitSpace_ne_nil rest)
    | cons piece pieces =>
      rw [h] at hp
      by_cases ha : a = ' '
      · simp only [ha, if_true] at hp
        rcases List.mem_cons.mp hp with h1 | h1
        · subst h1; simp at hc
        · have : c ∈ rest := ih p (h ▸ h1) c hc
          exact List.mem_cons_of_mem a this
      · simp only [ha, if_false] at hp
        rcases List.mem_cons.mp hp with h1 | h1
        · subst h1
          rcases List.mem_cons.mp hc with h2 | h2
          · exact h2 ▸ List.mem_cons_self a rest
          · have : c ∈ rest := ih piece (h ▸ List.mem_cons_self piece pieces) c h2
            exact List.mem_cons_of_mem a this
        · have : c ∈ rest := ih p (h ▸ List.mem_cons_of_mem piece h1) c hc
          exact List.mem_cons_of_mem a this

/-- C8 counterexample: on the whitespace-only input `" "` (one space, no
stop marker) `check_query` yields a list of two empty strings, not a list
containing one empty string. -/
theorem whitespace_one_blank_counterexample :
    (∀ c ∈ (" " : String).data, c.isWhitespace = true) ∧
    pyIn "无需" " " = false ∧
    check_query " " = some ["", ""] ∧
    check_query " " ≠ some [""] := by
  refine ⟨by decide, by decide, by decide, by decide⟩

/-- C8 (amended): for every planning result that is empty or whitespace-only
and lacks the stop marker, `check_query` yields — not an error and not the
stop signal — a non-empty list all of whose entries are the empty string
(a single `""` when the input has no space character; one entry per
space-separated piece otherwise). -/
theorem whitespace_planning_result_all_blank (s : String)
    (hws : ∀ c ∈ s.data, c.isWhitespace = true)
    (hmk : pyIn "无需" s = false) :
    ∃ l, check_query s = some l ∧ l ≠ [] ∧ ∀ x ∈ l, x = "" := by
  refine ⟨(pySplitSpace s.toList).map (fun p => (pyStrip p).asString),
    by simp [check_query, hmk], ?_, ?_⟩
  · simp [pySplitSpace_ne_nil]
  · intro x hx
    rcases List.mem_map.mp hx with ⟨p, hp, hx2⟩
    have hpw : ∀ c ∈ p, c.isWhitespace = true := fun c hc =>
      hws c (pySplitSpace_piece_chars s.toList p hp c hc)
    rw [← hx2, pyStrip_eq_nil p hpw]
    rfl

/-- Witness for the amended C8 at the empty input. -/
theorem whitespace_planning_result_all_blank_witness :
    ∃ l, check_query "" = some l ∧ l ≠ [] ∧ ∀ x ∈ l, x = "" :=
  whitespace_planning_result_all_blank "" (by decide) (by decide)
